import Mathlib

/-!
Verification development for the channel participant state machine of
`iota-streams-app-channels` (file `src/api/user.rs`).

The `User` engine itself is translated from the source.  Its collaborators
(link generator, stores, header, content wrap/unwrap and sponge machinery)
live in sibling crates that are not part of the sources; they are modelled
from the specification, each with a doc comment starting `Modelled from the
spec:`.  Machine integers (`u32`, `u8`) are modelled as `Nat` with explicit
reduction modulo `2 ^ 32` where overflow matters (release-mode wrapping
semantics).
-/

namespace Streams

/-- Ed25519 signing public key, the participant identity (opaque). -/
abbrev PK := Nat

/-- Relative link component addressing one message within a channel (opaque). -/
abbrev Rel := Nat

/-- Pre-shared-key identifier (opaque). -/
abbrev PskId := Nat

/-- Pre-shared key (opaque). -/
abbrev Psk := Nat

/-- Link-store caller info (opaque). -/
abbrev Info := Nat

/-- Payload bytes (opaque byte string). -/
abbrev Bytes := List Nat

/-- Modulus of `u32` arithmetic. -/
def U32LIM : Nat := 4294967296

/-- Wrapping `u32` addition (release-mode semantics of Rust `+`). -/
def add32 (a b : Nat) : Nat := (a + b) % U32LIM

/-- Wrapping `u32` subtraction (release-mode semantics of Rust `-`);
in debug builds an underflow is a panic instead. -/
def sub32 (a b : Nat) : Nat := (a + (U32LIM - b % U32LIM)) % U32LIM

/-- Modelled from the spec: a `Link` is an opaque address with a `base`
projection identifying the channel instance and a `rel` projection
addressing a single message; equality uses both (`HasLink` in the source). -/
structure Link where
  base : Nat
  rel : Rel
deriving DecidableEq

/-- Modelled from the spec: `Cursor { link, branch_no: u32, seq_no: u32 }`,
the `(rel_link, branch, seq_no)` triple tracking the next address for a
publisher (defined in the `iota-streams-app` crate, outside `src/`). -/
structure Cursor (R : Type) where
  link : R
  branch_no : Nat
  seq_no : Nat
deriving DecidableEq

/-- Modelled from the spec: `Cursor::new_at(link, branch_no, seq_no)`. -/
def Cursor.new_at {R : Type} (l : R) (b : Nat) (s : Nat) : Cursor R := ⟨l, b, s⟩

/-- Modelled from the spec: `Cursor::next_seq` bumps `seq_no` by one
(`u32` arithmetic). -/
def Cursor.next_seq {R : Type} (c : Cursor R) : Cursor R :=
  { c with seq_no := add32 c.seq_no 1 }

/-- Modelled from the spec: `Cursor::get_seq_num` returns `seq_no` (as `u64`
in the source; value-preserving here). -/
def Cursor.get_seq_num {R : Type} (c : Cursor R) : Nat := c.seq_no

/-- Content-type tag ANNOUNCE (8-bit tag space; concrete values opaque). -/
def ANNOUNCE : Nat := 0

/-- Content-type tag SUBSCRIBE. -/
def SUBSCRIBE : Nat := 1

/-- Content-type tag KEYLOAD. -/
def KEYLOAD : Nat := 2

/-- Content-type tag SIGNED_PACKET. -/
def SIGNED_PACKET : Nat := 3

/-- Content-type tag TAGGED_PACKET. -/
def TAGGED_PACKET : Nat := 4

/-- Content-type tag SEQUENCE. -/
def SEQUENCE : Nat := 5

/-- Modelled from the spec: the BRANCHING bit of the flags byte
(`FLAG_BRANCHING_MASK` from the header module). -/
def FLAG_BRANCHING_MASK : Nat := 1

/-- `const ANN_MESSAGE_NUM: u32 = 0` from the source. -/
def ANN_MESSAGE_NUM : Nat := 0

/-- `const SUB_MESSAGE_NUM: u32 = 0` from the source. -/
def SUB_MESSAGE_NUM : Nat := 0

/-- `const SEQ_MESSAGE_NUM: u32 = 1` from the source. -/
def SEQ_MESSAGE_NUM : Nat := 1

/-- Modelled from the spec: the message header
`HDF { link, content_type, payload_length_hint, seq_num }` built by
`HDF::new(l).with_content_type(t).with_payload_length(p).with_seq_num(n)`. -/
structure HDF where
  link : Link
  content_type : Nat
  payload_length : Nat
  seq_num : Nat
deriving DecidableEq

/-- Modelled from the spec: the decoded body of a message, one constructor
per content kind, carrying exactly the fields the content wrappers of the
six kinds encode. -/
inductive Content where
  | announce (sig_pk : PK) (flags : Nat)
  | subscribe (subscriber_sig_pk : PK) (unsubscribe_key : Nat)
  | keyload (psk_ids : List PskId) (ke_pks : List PK)
  | signed_packet (sig_pk : PK) (public_payload masked_payload : Bytes)
  | tagged_packet (public_payload masked_payload : Bytes)
  | sequence (link : Rel) (pk : PK) (seq_num : Nat) (ref_link : Rel)
deriving DecidableEq

/-- Modelled from the spec: the committed sponge state is the authenticated
state over the header and the content; represented symbolically as the pair. -/
abbrev Spongos := HDF × Content

/-- Modelled from the spec: a binary message.  `header = none` models a
header that fails to parse; `body = none` or `valid = false` models a body
whose sponge unwrap fails (bad signature, bad MAC, truncated body). -/
structure BinaryMessage where
  link : Link
  header : Option HDF
  body : Option Content
  valid : Bool
deriving DecidableEq

/-- Modelled from the spec: `WrapState` carries the post-wrap sponge and the
link it commits under. -/
structure WrapState where
  link : Link
  spongos : Spongos
deriving DecidableEq

/-- Modelled from the spec: `WrappedMessage { message, wrapped }`, the result
of `PreparedMessage::wrap`. -/
structure WrappedMessage where
  message : BinaryMessage
  wrapped : WrapState
deriving DecidableEq

/-- `WrapStateSequence(cursor, Option<WrapState>)` from the source. -/
structure WrapStateSequence where
  cursor : Cursor Rel
  state : Option WrapState
deriving DecidableEq

/-- `WrappedSequence(Option<BinaryMessage>, Option<WrapStateSequence>)`
from the source. -/
structure WrappedSequence where
  message : Option BinaryMessage
  wrapped : Option WrapStateSequence
deriving DecidableEq

/-- `GenericMessage { link, body }` returned by the `handle_*` operations. -/
structure GenericMessage (α : Type) where
  link : Link
  body : α
deriving DecidableEq

/-- Modelled from the spec: the `LinkGenerator`.  `derive` is the pure,
collision-resistant `link_from(pk, cursor)`; `seed` models `gen(pk,
channel_idx)`; `anchor` is the link returned by `get()` and rebound by
`reset`. -/
structure LinkGen where
  seed : PK → Nat → Link
  derive : PK → Cursor Rel → Link
  anchor : Link

/-- Modelled from the spec: `LinkGenerator::gen(pk, channel_idx)` seeds the
generator. -/
def LinkGen.gen (lg : LinkGen) (pk : PK) (idx : Nat) : LinkGen :=
  { lg with anchor := lg.seed pk idx }

/-- Modelled from the spec: `LinkGenerator::get()` returns the currently
anchored link. -/
def LinkGen.get (lg : LinkGen) : Link := lg.anchor

/-- Modelled from the spec: `LinkGenerator::link_from(pk, cursor)` derives a
fresh link, a pure function of its arguments. -/
def LinkGen.link_from (lg : LinkGen) (pk : PK) (c : Cursor Rel) : Link :=
  lg.derive pk c

/-- Modelled from the spec: `LinkGenerator::reset(link)` rebinds the anchor. -/
def LinkGen.reset (lg : LinkGen) (l : Link) : LinkGen :=
  { lg with anchor := l }

/-- Modelled from the spec: store lookup (`get`) for the `PkStore`,
`PskStore` and `LinkStore` interfaces, over an association list. -/
def storeGet {β : Type} (s : List (Nat × β)) (k : Nat) : Option β :=
  match s with
  | [] => none
  | e :: t => if e.1 = k then some e.2 else storeGet t k

/-- Modelled from the spec: store insertion (`insert`) with map semantics:
replace the value when the key is present, append otherwise. -/
def storePut {β : Type} (s : List (Nat × β)) (k : Nat) (v : β) : List (Nat × β) :=
  match s with
  | [] => [(k, v)]
  | e :: t => if e.1 = k then (k, v) :: t else e :: storePut t k v

/-- Modelled from the spec: in-place mutation of every stored value
(`iter_mut` over the whole store). -/
def storeMapVals {β : Type} (f : β → β) (s : List (Nat × β)) : List (Nat × β) :=
  s.map (fun e => (e.1, f e.2))

/-- Publisher store: signer identity to cursor. -/
abbrev PkStore := List (PK × Cursor Rel)

/-- Pre-shared-key store: key id to pre-shared key. -/
abbrev PskStore := List (PskId × Psk)

/-- Link store: rel link to committed sponge state and caller info. -/
abbrev LinkStore := List (Rel × Spongos × Info)

/-- Structured errors of the public contract (kinds from the spec). -/
inductive Err where
  | preconditionUnmet
  | addressMismatch
  | contentTypeMismatch
  | storeMiss
  | cryptoFailure
  | encodingError
deriving DecidableEq

/-- Returns `true` exactly on the error outcome of a fallible call. -/
def exceptErr {α : Type} : Except Err α → Bool
  | .error _ => true
  | .ok _ => false

/-- The per-user state of `User` from the source: identity, stores, author
key, link generator, link store, application instance and flags. -/
structure User where
  sig_pk : PK
  ke_sk : Nat
  psk_store : PskStore
  pk_store : PkStore
  author_sig_pk : Option PK
  link_gen : LinkGen
  link_store : LinkStore
  appinst : Option Link
  flags : Nat
  message_encoding : Bytes
  uniform_payload_length : Nat

/-- Modelled from the spec: wrapping a prepared message packages the header
and content into a binary message and a committable sponge state
(`PreparedMessage::wrap`). -/
def wrapMsg (h : HDF) (c : Content) : WrappedMessage :=
  ⟨⟨h.link, some h, some c, true⟩, ⟨h.link, (h, c)⟩⟩

/-- `User::gen`: a fresh user with empty stores, no author key and no
application instance (key generation from the PRNG is external; the
identity is passed in). -/
def User.gen (sig_pk : PK) (ke_sk : Nat) (lg : LinkGen) (flags : Nat)
    (message_encoding : Bytes) (uniform_payload_length : Nat) : User :=
  ⟨sig_pk, ke_sk, [], [], none, lg, [], none, flags, message_encoding,
   uniform_payload_length⟩

/-- `User::create_channel`: fails if a channel is already registered;
otherwise seeds the link generator, inserts self at `(appinst.rel, 0, 2)`
and records `appinst`. -/
def User.create_channel (u : User) (channel_idx : Nat) : User × Except Err Unit :=
  if u.appinst.isSome then (u, .error .preconditionUnmet)
  else
    let lg := u.link_gen.gen u.sig_pk channel_idx
    let appinst := lg.get
    ({ u with
        link_gen := lg,
        pk_store := storePut u.pk_store u.sig_pk (Cursor.new_at appinst.rel 0 2),
        appinst := some appinst },
     .ok ())

/-- `User::commit_wrapped`: commit a wrapped state's sponge under its link. -/
def User.commit_wrapped (u : User) (w : WrapState) (info : Info) : User × Link :=
  ({ u with link_store := storePut u.link_store w.link.rel (w.spongos, info) },
   w.link)

/-- `User::ensure_appinst`: the channel must be registered and the header's
base must match it. -/
def User.ensure_appinst (u : User) (h : HDF) : Except Err Unit :=
  match u.appinst with
  | none => .error .preconditionUnmet
  | some l => if l.base = h.link.base then .ok () else .error .addressMismatch

/-- `User::lookup_ke_sk`: returns own X25519 secret exactly when the passed
signing key is self. -/
def User.lookup_ke_sk (u : User) (pk : PK) : Option Nat :=
  if u.sig_pk = pk then some u.ke_sk else none

/-- `User::get_seq_no`: the `seq_no` of self's cursor, if present. -/
def User.get_seq_no (u : User) : Option Nat :=
  (storeGet u.pk_store u.sig_pk).map Cursor.seq_no

/-- `User::is_multi_branching`: the BRANCHING bit of the flags byte. -/
def User.is_multi_branching (u : User) : Bool :=
  u.flags &&& FLAG_BRANCHING_MASK ≠ 0

/-- `User::unwrap_announcement`: when already registered the announcement's
link must equal `appinst`; the body must unwrap as ANNOUNCE content.
Returns the sponge state together with the author key and flags. -/
def User.unwrap_announcement (u : User) (h : HDF) (m : BinaryMessage) :
    Except Err (Spongos × PK × Nat) :=
  let cont : Except Err (Spongos × PK × Nat) :=
    match m.body, m.valid with
    | some (.announce pk flags), true => .ok ((h, .announce pk flags), pk, flags)
    | _, _ => .error .cryptoFailure
  match u.appinst with
  | some appinst => if appinst = h.link then cont else .error .addressMismatch
  | none => cont

/-- `User::handle_announcement`: parse the header, require content type
ANNOUNCE, unwrap, commit the sponge, then seed `pk_store` with the author's
key and self at `(rel, 0, 2)`, reset the link generator and record
`appinst`, `author_sig_pk` and the message flags. -/
def User.handle_announcement (u : User) (m : BinaryMessage) (info : Info) :
    User × Except Err Unit :=
  match m.header with
  | none => (u, .error .encodingError)
  | some h =>
    if h.content_type ≠ ANNOUNCE then (u, .error .contentTypeMismatch)
    else
      match u.unwrap_announcement h m with
      | .error e => (u, .error e)
      | .ok (sp, sig_pk, flags) =>
        let link := h.link
        let u1 := { u with link_store := storePut u.link_store link.rel (sp, info) }
        let cursor := Cursor.new_at link.rel 0 2
        let u2 := { u1 with
          pk_store := storePut (storePut u1.pk_store sig_pk cursor) u1.sig_pk cursor,
          link_gen := u1.link_gen.reset link,
          appinst := some link,
          author_sig_pk := some sig_pk,
          flags := flags }
        (u2, .ok ())

/-- `User::unwrap_subscribe`: requires `ensure_appinst`; the body must
unwrap as SUBSCRIBE content (decrypted with own key-agreement secret). -/
def User.unwrap_subscribe (u : User) (h : HDF) (m : BinaryMessage) :
    Except Err (Spongos × PK × Nat) :=
  match u.ensure_appinst h with
  | .error e => .error e
  | .ok _ =>
    match m.body, m.valid with
    | some (.subscribe pk uk), true => .ok ((h, .subscribe pk uk), pk, uk)
    | _, _ => .error .cryptoFailure

/-- `User::handle_subscribe`: commit the sponge and store the discovered
subscriber key at `(appinst.rel, 0, SEQ_MESSAGE_NUM)`; the unsubscribe key
is not consulted further. -/
def User.handle_subscribe (u : User) (m : BinaryMessage) (info : Info) :
    User × Except Err Unit :=
  match m.header with
  | none => (u, .error .encodingError)
  | some h =>
    match u.unwrap_subscribe h m with
    | .error e => (u, .error e)
    | .ok (sp, sub_pk, _uk) =>
      let u1 := { u with link_store := storePut u.link_store h.link.rel (sp, info) }
      match u1.appinst with
      | none => (u, .error .preconditionUnmet)
      | some appinst =>
        ({ u1 with
            pk_store := storePut u1.pk_store sub_pk
              (Cursor.new_at appinst.rel 0 SEQ_MESSAGE_NUM) },
         .ok ())

/-- `User::unwrap_keyload`: requires `ensure_appinst` and the author's
public key; the body must unwrap as KEYLOAD content.  The session key is
recovered exactly when a pre-shared key matches the store or `lookup_ke_sk`
yields a secret for one of the key-agreement recipients. -/
def User.unwrap_keyload (u : User) (h : HDF) (m : BinaryMessage) :
    Except Err (Spongos × Option Unit × List PK) :=
  match u.ensure_appinst h with
  | .error e => .error e
  | .ok _ =>
    match u.author_sig_pk with
    | none => .error .preconditionUnmet
    | some _ =>
      match m.body, m.valid with
      | some (.keyload psk_ids ke_pks), true =>
        let key : Option Unit :=
          if psk_ids.any (fun id => (storeGet u.psk_store id).isSome)
              || ke_pks.any (fun pk => (u.lookup_ke_sk pk).isSome)
          then some () else none
        .ok ((h, .keyload psk_ids ke_pks), key, ke_pks)
      | _, _ => .error .cryptoFailure

/-- `User::handle_keyload`: commit the sponge; when the session key was
recovered, insert every recipient key not yet in `pk_store` at
`(appinst.rel, 0, 2)` and answer `allowed = true`, otherwise answer
`allowed = false`. -/
def User.handle_keyload (u : User) (m : BinaryMessage) (info : Info) :
    User × Except Err (GenericMessage Bool) :=
  match m.header with
  | none => (u, .error .encodingError)
  | some h =>
    match u.unwrap_keyload h m with
    | .error e => (u, .error e)
    | .ok (sp, key, ke_pks) =>
      let u1 := { u with link_store := storePut u.link_store h.link.rel (sp, info) }
      if key.isSome then
        match u1.appinst with
        | some appinst =>
          ({ u1 with
              pk_store := ke_pks.foldl (fun s pk =>
                if (storeGet s pk).isSome then s
                else storePut s pk (Cursor.new_at appinst.rel 0 2)) u1.pk_store },
           .ok ⟨m.link, true⟩)
        | none => (u1, .ok ⟨m.link, true⟩)
      else (u1, .ok ⟨m.link, false⟩)

/-- `User::unwrap_signed_packet`: requires `ensure_appinst`; the body must
unwrap as SIGNED_PACKET content. -/
def User.unwrap_signed_packet (u : User) (h : HDF) (m : BinaryMessage) :
    Except Err (Spongos × PK × Bytes × Bytes) :=
  match u.ensure_appinst h with
  | .error e => .error e
  | .ok _ =>
    match m.body, m.valid with
    | some (.signed_packet pk pub mask), true =>
      .ok ((h, .signed_packet pk pub mask), pk, pub, mask)
    | _, _ => .error .cryptoFailure

/-- `User::handle_signed_packet`: commit the sponge and surface the signer
key and both payloads. -/
def User.handle_signed_packet (u : User) (m : BinaryMessage) (info : Info) :
    User × Except Err (GenericMessage (PK × Bytes × Bytes)) :=
  match m.header with
  | none => (u, .error .encodingError)
  | some h =>
    match u.unwrap_signed_packet h m with
    | .error e => (u, .error e)
    | .ok (sp, body) =>
      ({ u with link_store := storePut u.link_store h.link.rel (sp, info) },
       .ok ⟨m.link, body⟩)

/-- `User::unwrap_tagged_packet`: requires `ensure_appinst`; the body must
unwrap as TAGGED_PACKET content. -/
def User.unwrap_tagged_packet (u : User) (h : HDF) (m : BinaryMessage) :
    Except Err (Spongos × Bytes × Bytes) :=
  match u.ensure_appinst h with
  | .error e => .error e
  | .ok _ =>
    match m.body, m.valid with
    | some (.tagged_packet pub mask), true =>
      .ok ((h, .tagged_packet pub mask), pub, mask)
    | _, _ => .error .cryptoFailure

/-- `User::handle_tagged_packet`: commit the sponge and surface both
payloads. -/
def User.handle_tagged_packet (u : User) (m : BinaryMessage) (info : Info) :
    User × Except Err (GenericMessage (Bytes × Bytes)) :=
  match m.header with
  | none => (u, .error .encodingError)
  | some h =>
    match u.unwrap_tagged_packet h m with
    | .error e => (u, .error e)
    | .ok (sp, body) =>
      ({ u with link_store := storePut u.link_store h.link.rel (sp, info) },
       .ok ⟨m.link, body⟩)

/-- `User::unwrap_sequence`: requires `ensure_appinst`; the body must unwrap
as SEQUENCE content. -/
def User.unwrap_sequence (u : User) (h : HDF) (m : BinaryMessage) :
    Except Err (Spongos × Rel × PK × Nat × Rel) :=
  match u.ensure_appinst h with
  | .error e => .error e
  | .ok _ =>
    match m.body, m.valid with
    | some (.sequence l pk n r), true => .ok ((h, .sequence l pk n r), l, pk, n, r)
    | _, _ => .error .cryptoFailure

/-- `User::handle_sequence`: commit the sponge and surface the referenced
`(link, pk, seq_num, ref_link)` tuple. -/
def User.handle_sequence (u : User) (m : BinaryMessage) (info : Info) :
    User × Except Err (GenericMessage (Rel × PK × Nat × Rel)) :=
  match m.header with
  | none => (u, .error .encodingError)
  | some h =>
    match u.unwrap_sequence h m with
    | .error e => (u, .error e)
    | .ok (sp, body) =>
      ({ u with link_store := storePut u.link_store h.link.rel (sp, info) },
       .ok ⟨m.link, body⟩)

/-- `User::wrap_sequence`: no cursor for self yields the empty result; with
the BRANCHING bit set, wrap a SEQUENCE message at `seq_num = 1` whose body
carries `(cursor.link, self pk, cursor seq, ref_link)` and return it with
the unchanged cursor; with the bit clear, return only the cursor with its
link replaced by `ref_link`. -/
def User.wrap_sequence (u : User) (ref_link : Rel) : WrappedSequence :=
  match storeGet u.pk_store u.sig_pk with
  | some cursor =>
    if u.flags &&& FLAG_BRANCHING_MASK ≠ 0 then
      let msg_link := u.link_gen.link_from u.sig_pk
        (Cursor.new_at cursor.link 0 SEQ_MESSAGE_NUM)
      let header : HDF := ⟨msg_link, SEQUENCE, 1, SEQ_MESSAGE_NUM⟩
      let content : Content :=
        .sequence cursor.link u.sig_pk cursor.get_seq_num ref_link
      let wrapped := wrapMsg header content
      ⟨some wrapped.message, some ⟨cursor, some wrapped.wrapped⟩⟩
    else
      ⟨none, some ⟨{ cursor with link := ref_link }, none⟩⟩
  | none => ⟨none, none⟩

/-- `User::store_state_for_all`: insert self at `(link, 0, seq_no + 1)` and
then set the link and `seq_no` of every stored cursor. -/
def User.store_state_for_all (u : User) (link : Rel) (seq_no : Nat) : User :=
  let s := storePut u.pk_store u.sig_pk (Cursor.new_at link 0 (add32 seq_no 1))
  let s1 := storeMapVals (fun c => { c with link := link, seq_no := add32 seq_no 1 }) s
  { u with pk_store := s1 }

/-- `User::commit_sequence`: with a wrapped sequence message, commit it,
point the cursor at the message's rel link, bump its `seq_no` and store it
under self; otherwise fall back to `store_state_for_all`. -/
def User.commit_sequence (u : User) (w : WrapStateSequence) (info : Info) :
    User × Option Link :=
  match w.state with
  | some ws =>
    let link := ws.link
    let cursor := Cursor.next_seq { w.cursor with link := ws.link.rel }
    let u1 := { u with link_store := storePut u.link_store ws.link.rel (ws.spongos, info) }
    ({ u1 with pk_store := storePut u1.pk_store u1.sig_pk cursor }, some link)
  | none => (u.store_state_for_all w.cursor.link w.cursor.seq_no, none)

/-- `User::store_state`: look self-managed cursor of `pk` up (the source
unwraps the lookup, a panic when absent, modelled as `none`), point it at
`link` and bump its `seq_no`. -/
def User.store_state (u : User) (pk : PK) (link : Rel) : Option User :=
  match storeGet u.pk_store pk with
  | none => none
  | some c =>
    let c1 := Cursor.next_seq { c with link := link }
    some { u with pk_store := storePut u.pk_store pk c1 }

/-- `User::gen_next_msg_id`: push one candidate at sequence position 1 in
branching mode, two candidates (current `seq_no` and `seq_no - 1` in `u32`
arithmetic) otherwise. -/
def gen_next_msg_id (ids : List (PK × Cursor Link)) (lg : LinkGen)
    (pk_info : PK × Cursor Rel) (branching : Bool) : List (PK × Cursor Link) :=
  let pk := pk_info.1
  let seq_link := pk_info.2.link
  let seq_no := pk_info.2.seq_no
  if branching then
    let msg_id := lg.link_from pk (Cursor.new_at seq_link 0 1)
    ids ++ [(pk, Cursor.new_at msg_id 0 1)]
  else
    let msg_id := lg.link_from pk (Cursor.new_at seq_link 0 seq_no)
    let msg_id1 := lg.link_from pk (Cursor.new_at seq_link 0 (sub32 seq_no 1))
    ids ++ [(pk, Cursor.new_at msg_id 0 seq_no),
            (pk, Cursor.new_at msg_id1 0 (sub32 seq_no 1))]

/-- `User::gen_next_msg_ids`: run `gen_next_msg_id` over every entry of
`pk_store`. -/
def User.gen_next_msg_ids (u : User) (branching : Bool) :
    List (PK × Cursor Link) :=
  u.pk_store.foldl (fun ids pk_info => gen_next_msg_id ids u.link_gen pk_info branching) []

/-! ### Store lemmas -/

theorem storeGet_storePut_self {β : Type} (s : List (Nat × β)) (k : Nat) (v : β) :
    storeGet (storePut s k v) k = some v := by
  induction s with
  | nil => simp [storePut, storeGet]
  | cons e t ih =>
    by_cases h : e.1 = k
    · simp [storePut, h, storeGet]
    · simp [storePut, h, storeGet, ih]

theorem storeGet_storePut_ne {β : Type} (s : List (Nat × β)) (k q : Nat) (v : β)
    (h : q ≠ k) : storeGet (storePut s k v) q = storeGet s q := by
  induction s with
  | nil => simp [storePut, storeGet, Ne.symm h]
  | cons e t ih =>
    by_cases he : e.1 = k
    · simp [storePut, if_pos he, storeGet, Ne.symm h, he]
    · simp only [storePut, if_neg he, storeGet, ih]

theorem storeGet_storePut_isSome {β : Type} (s : List (Nat × β)) (k q : Nat) (v : β)
    (h : (storeGet s q).isSome = true) :
    (storeGet (storePut s k v) q).isSome = true := by
  by_cases hq : q = k
  · subst hq; simp [storeGet_storePut_self]
  · rw [storeGet_storePut_ne s k q v hq]; exact h

theorem storeGet_storeMapVals {β : Type} (f : β → β) (s : List (Nat × β)) (q : Nat) :
    storeGet (storeMapVals f s) q = (storeGet s q).map f := by
  induction s with
  | nil => simp [storeMapVals, storeGet]
  | cons e t ih =>
    by_cases h : e.1 = q
    · simp [storeMapVals, storeGet, h]
    · simp only [storeMapVals, List.map_cons, storeGet, if_neg h]
      simpa [storeMapVals] using ih

/-! ### Error paths do not modify the user state -/

theorem handle_announcement_err_frozen (u : User) (m : BinaryMessage) (info : Info) :
    exceptErr (u.handle_announcement m info).2 = true →
    (u.handle_announcement m info).1 = u := by
  unfold User.handle_announcement
  split
  · intro _; rfl
  · split
    · intro _; rfl
    · split
      · intro _; rfl
      · intro h; simp [exceptErr] at h

theorem handle_subscribe_err_frozen (u : User) (m : BinaryMessage) (info : Info) :
    exceptErr (u.handle_subscribe m info).2 = true →
    (u.handle_subscribe m info).1 = u := by
  unfold User.handle_subscribe
  split
  · intro _; rfl
  · split
    · intro _; rfl
    · dsimp only
      split
      · intro _; rfl
      · intro h; simp [exceptErr] at h

theorem handle_keyload_err_frozen (u : User) (m : BinaryMessage) (info : Info) :
    exceptErr (u.handle_keyload m info).2 = true →
    (u.handle_keyload m info).1 = u := by
  unfold User.handle_keyload
  split
  · intro _; rfl
  · split
    · intro _; rfl
    · dsimp only
      split
      · split
        · intro h; simp [exceptErr] at h
        · intro h; simp [exceptErr] at h
      · intro h; simp [exceptErr] at h

theorem handle_signed_packet_err_frozen (u : User) (m : BinaryMessage) (info : Info) :
    exceptErr (u.handle_signed_packet m info).2 = true →
    (u.handle_signed_packet m info).1 = u := by
  unfold User.handle_signed_packet
  split
  · intro _; rfl
  · split
    · intro _; rfl
    · intro h; simp [exceptErr] at h

theorem handle_tagged_packet_err_frozen (u : User) (m : BinaryMessage) (info : Info) :
    exceptErr (u.handle_tagged_packet m info).2 = true →
    (u.handle_tagged_packet m info).1 = u := by
  unfold User.handle_tagged_packet
  split
  · intro _; rfl
  · split
    · intro _; rfl
    · intro h; simp [exceptErr] at h

theorem handle_sequence_err_frozen (u : User) (m : BinaryMessage) (info : Info) :
    exceptErr (u.handle_sequence m info).2 = true →
    (u.handle_sequence m info).1 = u := by
  unfold User.handle_sequence
  split
  · intro _; rfl
  · split
    · intro _; rfl
    · intro h; simp [exceptErr] at h

/-- C1: for every handle operation (`handle_announcement`, `handle_subscribe`,
`handle_keyload`, `handle_signed_packet`, `handle_tagged_packet`,
`handle_sequence`) and every input message, if the call returns an error the
user state is identical to its state before the call: no cursor advances and
no link-store commit occurs on the error path. -/
theorem handle_error_leaves_user_unchanged :
    (∀ (u : User) (m : BinaryMessage) (info : Info),
      exceptErr (u.handle_announcement m info).2 = true →
      (u.handle_announcement m info).1 = u) ∧
    (∀ (u : User) (m : BinaryMessage) (info : Info),
      exceptErr (u.handle_subscribe m info).2 = true →
      (u.handle_subscribe m info).1 = u) ∧
    (∀ (u : User) (m : BinaryMessage) (info : Info),
      exceptErr (u.handle_keyload m info).2 = true →
      (u.handle_keyload m info).1 = u) ∧
    (∀ (u : User) (m : BinaryMessage) (info : Info),
      exceptErr (u.handle_signed_packet m info).2 = true →
      (u.handle_signed_packet m info).1 = u) ∧
    (∀ (u : User) (m : BinaryMessage) (info : Info),
      exceptErr (u.handle_tagged_packet m info).2 = true →
      (u.handle_tagged_packet m info).1 = u) ∧
    (∀ (u : User) (m : BinaryMessage) (info : Info),
      exceptErr (u.handle_sequence m info).2 = true →
      (u.handle_sequence m info).1 = u) :=
  ⟨handle_announcement_err_frozen, handle_subscribe_err_frozen,
   handle_keyload_err_frozen, handle_signed_packet_err_frozen,
   handle_tagged_packet_err_frozen, handle_sequence_err_frozen⟩

/-- A concrete link generator used by concrete evaluations. -/
def lgW : LinkGen :=
  ⟨fun pk idx => ⟨pk + idx + 1, pk + idx + 1⟩,
   fun pk c => ⟨pk + c.link + c.seq_no + 2, pk + 3 * c.link + c.seq_no + 2⟩,
   ⟨0, 0⟩⟩

/-- A concrete fresh user. -/
def uW : User := User.gen 7 3 lgW 0 [] 0

/-- A concrete message whose header fails to parse. -/
def mBad : BinaryMessage := ⟨⟨1, 1⟩, none, none, true⟩

/-- Witness for C1: on a fresh user every handler rejects the unparseable
message and the state is returned unchanged. -/
theorem handle_error_leaves_user_unchanged_witness :
    (uW.handle_announcement mBad 0).1 = uW ∧
    (uW.handle_subscribe mBad 0).1 = uW ∧
    (uW.handle_keyload mBad 0).1 = uW ∧
    (uW.handle_signed_packet mBad 0).1 = uW ∧
    (uW.handle_tagged_packet mBad 0).1 = uW ∧
    (uW.handle_sequence mBad 0).1 = uW :=
  ⟨handle_error_leaves_user_unchanged.1 uW mBad 0 rfl,
   handle_error_leaves_user_unchanged.2.1 uW mBad 0 rfl,
   handle_error_leaves_user_unchanged.2.2.1 uW mBad 0 rfl,
   handle_error_leaves_user_unchanged.2.2.2.1 uW mBad 0 rfl,
   handle_error_leaves_user_unchanged.2.2.2.2.1 uW mBad 0 rfl,
   handle_error_leaves_user_unchanged.2.2.2.2.2 uW mBad 0 rfl⟩

/-! ### Sequencing -/

/-- C3: `wrap_sequence` returns exactly one of three outcomes: no cursor for
self gives the empty result; with the BRANCHING bit set it returns the
unchanged cursor together with a wrapped SEQUENCE message whose header has
`seq_num = 1` and whose body carries `(cursor.link, self pk, cursor seq_no,
ref_link)`; with the bit clear it returns no message and the cursor with its
link replaced by `ref_link`. -/
theorem wrap_sequence_trichotomy (u : User) (ref_link : Rel) :
    (storeGet u.pk_store u.sig_pk = none →
      u.wrap_sequence ref_link = ⟨none, none⟩) ∧
    (∀ c, storeGet u.pk_store u.sig_pk = some c →
      u.flags &&& FLAG_BRANCHING_MASK ≠ 0 →
      u.wrap_sequence ref_link =
        (let msg_link := u.link_gen.link_from u.sig_pk (Cursor.new_at c.link 0 SEQ_MESSAGE_NUM)
         let header : HDF := ⟨msg_link, SEQUENCE, 1, SEQ_MESSAGE_NUM⟩
         let content : Content := .sequence c.link u.sig_pk c.seq_no ref_link
         ⟨some ⟨msg_link, some header, some content, true⟩,
          some ⟨c, some ⟨msg_link, (header, content)⟩⟩⟩)) ∧
    (∀ c, storeGet u.pk_store u.sig_pk = some c →
      u.flags &&& FLAG_BRANCHING_MASK = 0 →
      u.wrap_sequence ref_link = ⟨none, some ⟨{ c with link := ref_link }, none⟩⟩) := by
  refine ⟨?_, ?_, ?_⟩
  · intro h
    simp [User.wrap_sequence, h]
  · intro c hc hb
    simp [User.wrap_sequence, hc, hb, wrapMsg, Cursor.get_seq_num]
  · intro c hc hb
    simp [User.wrap_sequence, hc, hb]

/-- A concrete user with a cursor for self and the BRANCHING bit set. -/
def uBr : User := { uW with pk_store := [(7, ⟨4, 0, 2⟩)], flags := 1 }

/-- A concrete user with a cursor for self and the BRANCHING bit clear. -/
def uNb : User := { uW with pk_store := [(7, ⟨4, 0, 2⟩)], flags := 0 }

/-- Witness for C3: the three outcomes at concrete states. -/
theorem wrap_sequence_trichotomy_witness :
    uW.wrap_sequence 5 = ⟨none, none⟩ ∧
    uBr.wrap_sequence 5 =
      ⟨some ⟨⟨14, 22⟩, some ⟨⟨14, 22⟩, SEQUENCE, 1, SEQ_MESSAGE_NUM⟩,
             some (.sequence 4 7 2 5), true⟩,
       some ⟨⟨4, 0, 2⟩, some ⟨⟨14, 22⟩,
             (⟨⟨14, 22⟩, SEQUENCE, 1, SEQ_MESSAGE_NUM⟩, .sequence 4 7 2 5)⟩⟩⟩ ∧
    uNb.wrap_sequence 5 = ⟨none, some ⟨⟨5, 0, 2⟩, none⟩⟩ :=
  ⟨(wrap_sequence_trichotomy uW 5).1 rfl,
   (wrap_sequence_trichotomy uBr 5).2.1 ⟨4, 0, 2⟩ rfl (by decide),
   (wrap_sequence_trichotomy uNb 5).2.2 ⟨4, 0, 2⟩ rfl (by decide)⟩

/-- C4: `commit_sequence` on a wrapped sequence message commits its sponge
state to the link store, points the cursor at the rel of the sequence
message's link, bumps `seq_no`, stores the cursor under self's signing key
and returns the sequence message's link; without a wrapped message it calls
`store_state_for_all(cursor.link, cursor.seq_no)` and returns `none`. -/
theorem commit_sequence_spec (u : User) (w : WrapStateSequence) (info : Info) :
    (∀ ws, w.state = some ws →
      u.commit_sequence w info =
        ({ u with
            link_store := storePut u.link_store ws.link.rel (ws.spongos, info),
            pk_store := storePut u.pk_store u.sig_pk
              ⟨ws.link.rel, w.cursor.branch_no, add32 w.cursor.seq_no 1⟩ },
         some ws.link)) ∧
    (w.state = none →
      u.commit_sequence w info =
        (u.store_state_for_all w.cursor.link w.cursor.seq_no, none)) := by
  constructor
  · intro ws h
    simp [User.commit_sequence, h, Cursor.next_seq]
  · intro h
    simp [User.commit_sequence, h]

/-- A concrete wrap state holding a wrapped sequence message. -/
def wsqSome : WrapStateSequence :=
  ⟨⟨4, 0, 2⟩, some ⟨⟨9, 11⟩, (⟨⟨9, 11⟩, SEQUENCE, 1, SEQ_MESSAGE_NUM⟩, .sequence 4 7 2 5)⟩⟩

/-- A concrete wrap state without a wrapped message. -/
def wsqNone : WrapStateSequence := ⟨⟨4, 0, 2⟩, none⟩

/-- Witness for C4: both outcomes at concrete states. -/
theorem commit_sequence_spec_witness :
    uBr.commit_sequence wsqSome 0 =
      ({ uBr with
          link_store := [(11, ((⟨⟨9, 11⟩, SEQUENCE, 1, SEQ_MESSAGE_NUM⟩, .sequence 4 7 2 5), 0))],
          pk_store := [(7, ⟨11, 0, 3⟩)] },
       some ⟨9, 11⟩) ∧
    uBr.commit_sequence wsqNone 0 = (uBr.store_state_for_all 4 2, none) :=
  ⟨(commit_sequence_spec uBr wsqSome 0).1 _ rfl,
   (commit_sequence_spec uBr wsqNone 0).2 rfl⟩

/-! ### State advancement for all publishers -/

/-- A concrete user whose store holds a publisher entry with a nonzero
branch number besides self. -/
def uS8 : User := { uW with sig_pk := 2, pk_store := [(1, ⟨3, 9, 5⟩), (2, ⟨4, 0, 7⟩)] }

/-- Counterexample for C8: `store_state_for_all` leaves the `branch_no` of a
pre-existing entry of another publisher unchanged (here 9, where the claim
demands 0), and the new `seq_no` is computed in wrapping `u32` arithmetic
(at `n = 2 ^ 32 - 1` it becomes 0, not `n + 1`). -/
theorem store_state_for_all_counterexample :
    storeGet (uS8.store_state_for_all 10 0).pk_store 1 = some ⟨10, 9, 1⟩ ∧
    storeGet (uS8.store_state_for_all 10 4294967295).pk_store 2 = some ⟨10, 0, 0⟩ := by
  constructor
  · decide
  · decide

/-- C8 (amended): `store_state_for_all(L, n)` sets self's cursor to
`(L, 0, (n + 1) mod 2 ^ 32)` and, for every other stored publisher entry,
sets its link to `L` and its `seq_no` to `(n + 1) mod 2 ^ 32` while leaving
that entry's `branch_no` unchanged. -/
theorem store_state_for_all_spec (u : User) (L : Rel) (n : Nat) :
    storeGet (u.store_state_for_all L n).pk_store u.sig_pk =
      some ⟨L, 0, add32 n 1⟩ ∧
    (∀ pk c, pk ≠ u.sig_pk → storeGet u.pk_store pk = some c →
      storeGet (u.store_state_for_all L n).pk_store pk =
        some ⟨L, c.branch_no, add32 n 1⟩) := by
  constructor
  · simp [User.store_state_for_all, storeGet_storeMapVals, storeGet_storePut_self,
      Cursor.new_at]
  · intro pk c hpk hc
    simp [User.store_state_for_all, storeGet_storeMapVals,
      storeGet_storePut_ne u.pk_store u.sig_pk pk _ hpk, hc]

/-- Witness for C8 (amended): concrete evaluation on `uS8`. -/
theorem store_state_for_all_spec_witness :
    storeGet (uS8.store_state_for_all 10 0).pk_store 2 = some ⟨10, 0, 1⟩ ∧
    storeGet (uS8.store_state_for_all 10 0).pk_store 1 = some ⟨10, 9, 1⟩ :=
  ⟨(store_state_for_all_spec uS8 10 0).1,
   (store_state_for_all_spec uS8 10 0).2 1 ⟨3, 9, 5⟩ (by decide) rfl⟩

/-- C9: `store_state(pk, link)` is partial: with an entry for `pk` it points
that entry at `link` and bumps its `seq_no` by one; without an entry the
source unwraps a `None` cursor lookup, a panic rather than a recoverable
error, modelled here as the `none` outcome. -/
theorem store_state_spec (u : User) (pk : PK) (link : Rel) :
    (∀ c, storeGet u.pk_store pk = some c →
      u.store_state pk link =
        some { u with pk_store := storePut u.pk_store pk ⟨link, c.branch_no, add32 c.seq_no 1⟩ }) ∧
    (storeGet u.pk_store pk = none → u.store_state pk link = none) := by
  constructor
  · intro c h
    simp [User.store_state, h, Cursor.next_seq]
  · intro h
    simp [User.store_state, h]

/-- Witness for C9: concrete evaluation of both alternatives. -/
theorem store_state_spec_witness :
    uBr.store_state 7 9 = some { uBr with pk_store := [(7, ⟨9, 0, 3⟩)] } ∧
    uW.store_state 7 9 = none :=
  ⟨(store_state_spec uBr 7 9).1 ⟨4, 0, 2⟩ rfl,
   (store_state_spec uW 7 9).2 rfl⟩

/-! ### Address enumeration -/

/-- The candidates contributed by one publisher entry: one at sequence
position 1 in branching mode, two (current `seq_no` and `seq_no - 1` in
`u32` arithmetic) otherwise. -/
def genChunk (lg : LinkGen) (branching : Bool) (e : PK × Cursor Rel) :
    List (PK × Cursor Link) :=
  if branching then
    [(e.1, Cursor.new_at (lg.link_from e.1 (Cursor.new_at e.2.link 0 1)) 0 1)]
  else
    [(e.1, Cursor.new_at (lg.link_from e.1 (Cursor.new_at e.2.link 0 e.2.seq_no)) 0 e.2.seq_no),
     (e.1, Cursor.new_at (lg.link_from e.1 (Cursor.new_at e.2.link 0 (sub32 e.2.seq_no 1)))
        0 (sub32 e.2.seq_no 1))]

theorem gen_next_msg_id_eq (ids : List (PK × Cursor Link)) (lg : LinkGen)
    (e : PK × Cursor Rel) (b : Bool) :
    gen_next_msg_id ids lg e b = ids ++ genChunk lg b e := by
  cases b <;> simp [gen_next_msg_id, genChunk]

theorem foldl_append_chunk {α β : Type} (f : α → List β) :
    ∀ (l : List α) (a : List β),
      l.foldl (fun ids e => ids ++ f e) a = a ++ l.flatMap f := by
  intro l
  induction l with
  | nil => intro a; simp
  | cons e t ih =>
    intro a
    simp only [List.foldl_cons, ih, List.flatMap_cons, List.append_assoc]

theorem gen_next_msg_ids_eq (u : User) (b : Bool) :
    u.gen_next_msg_ids b = u.pk_store.flatMap (genChunk u.link_gen b) := by
  unfold User.gen_next_msg_ids
  have hf : (fun ids e => gen_next_msg_id ids u.link_gen e b) =
      fun (ids : List (PK × Cursor Link)) e => ids ++ genChunk u.link_gen b e := by
    funext ids e
    exact gen_next_msg_id_eq ids u.link_gen e b
  rw [hf, foldl_append_chunk]
  simp

theorem length_flatMap_const {α β : Type} (f : α → List β) (k : Nat)
    (hf : ∀ a, (f a).length = k) : ∀ l : List α, (l.flatMap f).length = k * l.length := by
  intro l
  induction l with
  | nil => simp
  | cons e t ih =>
    simp [List.flatMap_cons, ih, hf e, Nat.mul_succ, Nat.add_comm]

/-- C7: `gen_next_msg_ids(true)` yields exactly one candidate per publisher
entry of `pk_store`, each at sequence position 1 (the next sequence message
address); `gen_next_msg_ids(false)` yields exactly two candidates per
publisher entry, one derived at the publisher's current `seq_no` and one at
`seq_no - 1` (in `u32` arithmetic). -/
theorem gen_next_msg_ids_candidates (u : User) :
    u.gen_next_msg_ids true = u.pk_store.flatMap (fun e =>
      [(e.1, Cursor.new_at (u.link_gen.link_from e.1 (Cursor.new_at e.2.link 0 1)) 0 1)]) ∧
    u.gen_next_msg_ids false = u.pk_store.flatMap (fun e =>
      [(e.1, Cursor.new_at (u.link_gen.link_from e.1 (Cursor.new_at e.2.link 0 e.2.seq_no))
          0 e.2.seq_no),
       (e.1, Cursor.new_at (u.link_gen.link_from e.1 (Cursor.new_at e.2.link 0 (sub32 e.2.seq_no 1)))
          0 (sub32 e.2.seq_no 1))]) ∧
    (u.gen_next_msg_ids true).length = u.pk_store.length ∧
    (u.gen_next_msg_ids false).length = 2 * u.pk_store.length := by
  refine ⟨?_, ?_, ?_, ?_⟩
  · rw [gen_next_msg_ids_eq]
    congr 1
  · rw [gen_next_msg_ids_eq]
    congr 1
  · rw [gen_next_msg_ids_eq, length_flatMap_const (genChunk u.link_gen true) 1]
    · simp
    · intro a; simp [genChunk]
  · rw [gen_next_msg_ids_eq, length_flatMap_const (genChunk u.link_gen false) 2]
    intro a; simp [genChunk]

/-- A concrete user with two publisher entries, one of them at `seq_no = 0`. -/
def uG : User := { uW with pk_store := [(1, ⟨0, 0, 0⟩), (2, ⟨3, 0, 5⟩)] }

/-- C10: in non-branching mode the second candidate of every publisher entry
is derived at `seq_no - 1` computed in `u32` arithmetic: for `seq_no ≥ 1`
this is the true predecessor, while for `seq_no = 0` the subtraction
underflows and wraps to `2 ^ 32 - 1` (in a debug build the same subtraction
is a panic, so totality needs every stored cursor to have `seq_no ≥ 1`). -/
theorem gen_next_msg_ids_u32_sub (u : User) (pk : PK) (c : Cursor Rel) :
    (pk, c) ∈ u.pk_store → c.seq_no < U32LIM →
    ((pk, Cursor.new_at
        (u.link_gen.link_from pk (Cursor.new_at c.link 0 (sub32 c.seq_no 1)))
        0 (sub32 c.seq_no 1)) ∈ u.gen_next_msg_ids false) ∧
    (1 ≤ c.seq_no → sub32 c.seq_no 1 = c.seq_no - 1) ∧
    (c.seq_no = 0 → sub32 c.seq_no 1 = U32LIM - 1) := by
  intro hmem hlt
  have hlt1 : c.seq_no < 4294967296 := hlt
  refine ⟨?_, ?_, ?_⟩
  · rw [gen_next_msg_ids_eq]
    exact List.mem_flatMap.mpr ⟨(pk, c), hmem, by simp [genChunk]⟩
  · intro h1
    unfold sub32 U32LIM
    omega
  · intro h0
    rw [h0]
    unfold sub32 U32LIM
    norm_num

/-- Witness for C10: both the wrapped candidate at `seq_no = 0` and the
ordinary predecessor candidate at `seq_no = 5` appear, with the claimed
`u32` values. -/
theorem gen_next_msg_ids_u32_sub_witness :
    ((1, Cursor.new_at (uG.link_gen.link_from 1 (Cursor.new_at 0 0 (sub32 0 1)))
        0 (sub32 0 1)) ∈ uG.gen_next_msg_ids false) ∧
    sub32 0 1 = U32LIM - 1 ∧
    ((2, Cursor.new_at (uG.link_gen.link_from 2 (Cursor.new_at 3 0 (sub32 5 1)))
        0 (sub32 5 1)) ∈ uG.gen_next_msg_ids false) ∧
    sub32 5 1 = 5 - 1 :=
  ⟨(gen_next_msg_ids_u32_sub uG 1 ⟨0, 0, 0⟩ (by decide) (by decide)).1,
   (gen_next_msg_ids_u32_sub uG 1 ⟨0, 0, 0⟩ (by decide) (by decide)).2.2 rfl,
   (gen_next_msg_ids_u32_sub uG 2 ⟨3, 0, 5⟩ (by decide) (by decide)).1,
   (gen_next_msg_ids_u32_sub uG 2 ⟨3, 0, 5⟩ (by decide) (by decide)).2.1 (by decide)⟩

/-! ### Announcement handling -/

theorem handle_announcement_ok_shape (u : User) (m : BinaryMessage) (info : Info)
    (hok : (u.handle_announcement m info).2 = .ok ()) :
    ∃ h a f, m.header = some h ∧ h.content_type = ANNOUNCE ∧
      m.body = some (.announce a f) ∧ m.valid = true ∧
      (u.handle_announcement m info).1 =
        { u with
            link_store := storePut u.link_store h.link.rel ((h, .announce a f), info),
            pk_store := storePut (storePut u.pk_store a ⟨h.link.rel, 0, 2⟩)
              u.sig_pk ⟨h.link.rel, 0, 2⟩,
            link_gen := u.link_gen.reset h.link,
            appinst := some h.link,
            author_sig_pk := some a,
            flags := f } := by
  unfold User.handle_announcement at hok ⊢
  cases hm : m.header with
  | none => simp only [hm] at hok; simp at hok
  | some h =>
    simp only [hm] at hok ⊢
    by_cases hct : h.content_type ≠ ANNOUNCE
    · rw [if_pos hct] at hok; simp at hok
    · rw [if_neg hct] at hok ⊢
      have hctEq : h.content_type = ANNOUNCE := not_not.mp hct
      cases hu : u.unwrap_announcement h m with
      | error e => simp only [hu] at hok; simp at hok
      | ok val =>
        obtain ⟨sp, a, f⟩ := val
        have hbv : m.body = some (.announce a f) ∧ m.valid = true ∧
            sp = (h, .announce a f) := by
          unfold User.unwrap_announcement at hu
          dsimp only at hu
          have hcont :
              (match m.body, m.valid with
                | some (.announce pk flags), true =>
                  (Except.ok ((h, .announce pk flags), pk, flags) :
                    Except Err (Spongos × PK × Nat))
                | _, _ => .error .cryptoFailure) = .ok (sp, a, f) := by
            cases hap : u.appinst with
            | none => simp only [hap] at hu; exact hu
            | some ap =>
              simp only [hap] at hu
              by_cases hal : ap = h.link
              · rw [if_pos hal] at hu; exact hu
              · rw [if_neg hal] at hu; simp at hu
          split at hcont
          · simp only [Except.ok.injEq, Prod.mk.injEq] at hcont
            obtain ⟨hsp, ha, hf⟩ := hcont
            subst ha; subst hf
            refine ⟨by assumption, by assumption, hsp.symm⟩
          · simp at hcont
        obtain ⟨hb, hv, hsp⟩ := hbv
        simp only [hu]
        subst hsp
        exact ⟨h, a, f, rfl, hctEq, hb, hv, rfl⟩

/-- C5: `handle_announcement` fails with a recoverable error when the
content type is not ANNOUNCE, or when a channel is already registered and
differs from the message's link; on success it inserts both the author's
signing key and self into `pk_store` at `(announcement rel, 0, 2)`, resets
the link generator to the announcement link, and records `appinst`,
`author_sig_pk` and the flags carried in the message. -/
theorem handle_announcement_contract :
    (∀ (u : User) (m : BinaryMessage) (info : Info) (h : HDF),
      m.header = some h → h.content_type ≠ ANNOUNCE →
      exceptErr (u.handle_announcement m info).2 = true) ∧
    (∀ (u : User) (m : BinaryMessage) (info : Info) (h : HDF) (ap : Link),
      m.header = some h → u.appinst = some ap → ap ≠ h.link →
      exceptErr (u.handle_announcement m info).2 = true) ∧
    (∀ (u : User) (m : BinaryMessage) (info : Info),
      (u.handle_announcement m info).2 = .ok () →
      ∃ h a f, m.header = some h ∧ m.body = some (.announce a f) ∧ m.valid = true ∧
        storeGet (u.handle_announcement m info).1.pk_store a = some ⟨h.link.rel, 0, 2⟩ ∧
        storeGet (u.handle_announcement m info).1.pk_store u.sig_pk = some ⟨h.link.rel, 0, 2⟩ ∧
        (u.handle_announcement m info).1.link_gen.anchor = h.link ∧
        (u.handle_announcement m info).1.appinst = some h.link ∧
        (u.handle_announcement m info).1.author_sig_pk = some a ∧
        (u.handle_announcement m info).1.flags = f) := by
  refine ⟨?_, ?_, ?_⟩
  · intro u m info h hm hct
    simp [User.handle_announcement, hm, hct, exceptErr]
  · intro u m info h ap hm hap hne
    unfold User.handle_announcement
    simp only [hm]
    by_cases hct : h.content_type ≠ ANNOUNCE
    · rw [if_pos hct]; simp [exceptErr]
    · rw [if_neg hct]
      have hum : u.unwrap_announcement h m = .error .addressMismatch := by
        unfold User.unwrap_announcement
        dsimp only
        simp only [hap]
        rw [if_neg hne]
      rw [hum]
      simp [exceptErr]
  · intro u m info hok
    obtain ⟨h, a, f, hm, hct, hb, hv, hshape⟩ := handle_announcement_ok_shape u m info hok
    refine ⟨h, a, f, hm, hb, hv, ?_, ?_, ?_, ?_, ?_, ?_⟩ <;> rw [hshape]
    · by_cases haS : a = u.sig_pk
      · subst haS
        exact storeGet_storePut_self _ _ _
      · rw [storeGet_storePut_ne _ _ _ _ haS]
        exact storeGet_storePut_self _ _ _
    · exact storeGet_storePut_self _ _ _
    · simp [LinkGen.reset]

/-- A concrete message with a SUBSCRIBE header. -/
def mSub : BinaryMessage := ⟨⟨1, 1⟩, some ⟨⟨1, 1⟩, SUBSCRIBE, 1, 0⟩, none, true⟩

/-- A concrete user already registered to channel link `(9, 9)`. -/
def uReg : User := { uW with appinst := some ⟨9, 9⟩ }

/-- A concrete valid announcement by author key 3 with flags 1. -/
def mAnn : BinaryMessage :=
  ⟨⟨2, 5⟩, some ⟨⟨2, 5⟩, ANNOUNCE, 1, 0⟩, some (.announce 3 1), true⟩

/-- A concrete announcement whose link differs from `uReg`'s channel. -/
def mAnnOther : BinaryMessage :=
  ⟨⟨1, 1⟩, some ⟨⟨1, 1⟩, ANNOUNCE, 1, 0⟩, some (.announce 3 0), true⟩

/-- Witness for C5: rejection on a wrong content type, rejection on a
mismatched channel, and the success postconditions on a fresh user. -/
theorem handle_announcement_contract_witness :
    exceptErr (uW.handle_announcement mSub 0).2 = true ∧
    exceptErr (uReg.handle_announcement mAnnOther 0).2 = true ∧
    (∃ h a f, mAnn.header = some h ∧ mAnn.body = some (.announce a f) ∧ mAnn.valid = true ∧
      storeGet (uW.handle_announcement mAnn 0).1.pk_store a = some ⟨h.link.rel, 0, 2⟩ ∧
      storeGet (uW.handle_announcement mAnn 0).1.pk_store uW.sig_pk = some ⟨h.link.rel, 0, 2⟩ ∧
      (uW.handle_announcement mAnn 0).1.link_gen.anchor = h.link ∧
      (uW.handle_announcement mAnn 0).1.appinst = some h.link ∧
      (uW.handle_announcement mAnn 0).1.author_sig_pk = some a ∧
      (uW.handle_announcement mAnn 0).1.flags = f) :=
  ⟨handle_announcement_contract.1 uW mSub 0 ⟨⟨1, 1⟩, SUBSCRIBE, 1, 0⟩ rfl (by decide),
   handle_announcement_contract.2.1 uReg mAnnOther 0 ⟨⟨1, 1⟩, ANNOUNCE, 1, 0⟩ ⟨9, 9⟩ rfl rfl (by decide),
   handle_announcement_contract.2.2 uW mAnn 0 rfl⟩

/-! ### Keyload handling -/

/-- The session-key recovery condition of `unwrap_keyload`: a pre-shared key
of the message matches the store, or `lookup_ke_sk` yields a secret for one
of the key-agreement recipients (that is, self is a recipient). -/
def keyFound (u : User) (psk_ids : List PskId) (ke_pks : List PK) : Bool :=
  psk_ids.any (fun id => (storeGet u.psk_store id).isSome)
    || ke_pks.any (fun pk => (u.lookup_ke_sk pk).isSome)

theorem foldIns_preserve (c0 : Cursor Rel) :
    ∀ (l : List PK) (s : PkStore) (q : PK) (c : Cursor Rel),
      storeGet s q = some c →
      storeGet (l.foldl (fun s pk =>
        if (storeGet s pk).isSome then s else storePut s pk c0) s) q = some c := by
  intro l
  induction l with
  | nil => intro s q c h; simpa using h
  | cons p t ih =>
    intro s q c h
    simp only [List.foldl_cons]
    by_cases hp : (storeGet s p).isSome = true
    · rw [if_pos hp]; exact ih s q c h
    · rw [if_neg hp]
      refine ih _ q c ?_
      by_cases hq : q = p
      · subst hq; rw [h] at hp; simp at hp
      · rw [storeGet_storePut_ne _ _ _ _ hq]; exact h

theorem foldIns_mem_none (c0 : Cursor Rel) :
    ∀ (l : List PK) (s : PkStore) (q : PK),
      q ∈ l → storeGet s q = none →
      storeGet (l.foldl (fun s pk =>
        if (storeGet s pk).isSome then s else storePut s pk c0) s) q = some c0 := by
  intro l
  induction l with
  | nil => intro s q hq; simp at hq
  | cons p t ih =>
    intro s q hq hnone
    simp only [List.foldl_cons]
    by_cases hqp : q = p
    · subst hqp
      rw [if_neg (by rw [hnone]; simp)]
      exact foldIns_preserve c0 t _ q c0 (storeGet_storePut_self _ _ _)
    · have hqt : q ∈ t := by
        rcases List.mem_cons.mp hq with h | h
        · exact absurd h hqp
        · exact h
      by_cases hp : (storeGet s p).isSome = true
      · rw [if_pos hp]; exact ih s q hqt hnone
      · rw [if_neg hp]
        refine ih _ q hqt ?_
        rw [storeGet_storePut_ne _ _ _ _ hqp]; exact hnone

/-- A concrete user registered to channel `(2, 5)` with a known author. -/
def uKy : User := { uW with appinst := some ⟨2, 5⟩, author_sig_pk := some 9 }

/-- A concrete keyload for the single unknown recipient 42 (not self, no
matching pre-shared key). -/
def mKy : BinaryMessage :=
  ⟨⟨2, 6⟩, some ⟨⟨2, 6⟩, KEYLOAD, 1, 2⟩, some (.keyload [] [42]), true⟩

/-- Counterexample for C6: a keyload accepted with `allowed = false` does
not insert its observed recipients: recipient 42 is absent from `pk_store`
before the call and still absent after it, though the claim demands its
insertion at `(appinst rel, 0, 2)`. -/
theorem handle_keyload_counterexample :
    (uKy.handle_keyload mKy 0).2 = .ok ⟨mKy.link, false⟩ ∧
    storeGet uKy.pk_store 42 = none ∧
    storeGet (uKy.handle_keyload mKy 0).1.pk_store 42 = none :=
  ⟨rfl, rfl, rfl⟩

/-- C6 (amended): for every keyload accepted by `handle_keyload` (with
`author_sig_pk` set and the message's base matching `appinst`), the call
answers `allowed = true` exactly when a matching pre-shared key or self's
key-agreement recipient slot yields the session key; when the key is
recovered, every recipient signing key absent from `pk_store` is inserted
with cursor `(appinst rel, 0, 2)`, and when it is not, `pk_store` is left
unchanged. -/
theorem handle_keyload_contract (u : User) (m : BinaryMessage) (info : Info)
    (h : HDF) (psk_ids : List PskId) (ke_pks : List PK) (ap : Link)
    (hm : m.header = some h) (hb : m.body = some (.keyload psk_ids ke_pks))
    (hv : m.valid = true) (hap : u.appinst = some ap) (hbase : ap.base = h.link.base)
    (hauth : u.author_sig_pk.isSome = true) :
    (u.handle_keyload m info).2 = .ok ⟨m.link, keyFound u psk_ids ke_pks⟩ ∧
    (keyFound u psk_ids ke_pks = true →
      ∀ pk, pk ∈ ke_pks → storeGet u.pk_store pk = none →
        storeGet (u.handle_keyload m info).1.pk_store pk = some ⟨ap.rel, 0, 2⟩) ∧
    (keyFound u psk_ids ke_pks = false →
      (u.handle_keyload m info).1.pk_store = u.pk_store) := by
  have hens : u.ensure_appinst h = .ok () := by
    unfold User.ensure_appinst
    simp only [hap]
    rw [if_pos hbase]
  obtain ⟨apk, hapk⟩ := Option.isSome_iff_exists.mp hauth
  have hunw : u.unwrap_keyload h m =
      .ok ((h, .keyload psk_ids ke_pks),
           (if keyFound u psk_ids ke_pks then some () else none), ke_pks) := by
    unfold User.unwrap_keyload
    simp only [hens, hapk, hb, hv]
    rfl
  unfold User.handle_keyload
  simp only [hm, hunw]
  refine ⟨?_, ?_, ?_⟩
  · cases hkf : keyFound u psk_ids ke_pks with
    | true => simp [hkf, hap]
    | false => simp [hkf]
  · intro hkf pk hpk hnone
    simp only [hkf, if_true, Option.isSome_some, hap]
    exact foldIns_mem_none _ ke_pks _ pk hpk hnone
  · intro hkf
    simp [hkf]

/-- A concrete keyload whose recipients are the unknown key 42 and self. -/
def mKySelf : BinaryMessage :=
  ⟨⟨2, 6⟩, some ⟨⟨2, 6⟩, KEYLOAD, 1, 2⟩, some (.keyload [] [42, 7]), true⟩

/-- Witness for C6 (amended): with self among the recipients the keyload is
allowed and the unknown recipient 42 is inserted at `(5, 0, 2)`; without a
matching slot it is refused and `pk_store` is untouched. -/
theorem handle_keyload_contract_witness :
    (uKy.handle_keyload mKySelf 0).2 = .ok ⟨mKySelf.link, keyFound uKy [] [42, 7]⟩ ∧
    storeGet (uKy.handle_keyload mKySelf 0).1.pk_store 42 = some ⟨5, 0, 2⟩ ∧
    (uKy.handle_keyload mKy 0).1.pk_store = uKy.pk_store :=
  ⟨(handle_keyload_contract uKy mKySelf 0 ⟨⟨2, 6⟩, KEYLOAD, 1, 2⟩ [] [42, 7] ⟨2, 5⟩
      rfl rfl rfl rfl rfl rfl).1,
   (handle_keyload_contract uKy mKySelf 0 ⟨⟨2, 6⟩, KEYLOAD, 1, 2⟩ [] [42, 7] ⟨2, 5⟩
      rfl rfl rfl rfl rfl rfl).2.1 rfl 42 (by decide) rfl,
   (handle_keyload_contract uKy mKy 0 ⟨⟨2, 6⟩, KEYLOAD, 1, 2⟩ [] [42] ⟨2, 5⟩
      rfl rfl rfl rfl rfl rfl).2.2 rfl⟩

/-! ### Reachable user states -/

/-- The user states reachable through the public API: a fresh user from
`gen`, followed by any sequence of the mutating public operations of `User`
(the read-only wrap and prepare operations do not change the state); a
`store_state` call that would panic produces no successor state. -/
inductive Reachable : User → Prop where
  | start (sig_pk ke_sk : Nat) (lg : LinkGen) (flags : Nat) (enc : Bytes) (upl : Nat) :
      Reachable (User.gen sig_pk ke_sk lg flags enc upl)
  | step_create_channel {u : User} (idx : Nat) :
      Reachable u → Reachable (u.create_channel idx).1
  | step_commit_wrapped {u : User} (w : WrapState) (info : Info) :
      Reachable u → Reachable (u.commit_wrapped w info).1
  | step_handle_announcement {u : User} (m : BinaryMessage) (info : Info) :
      Reachable u → Reachable (u.handle_announcement m info).1
  | step_handle_subscribe {u : User} (m : BinaryMessage) (info : Info) :
      Reachable u → Reachable (u.handle_subscribe m info).1
  | step_handle_keyload {u : User} (m : BinaryMessage) (info : Info) :
      Reachable u → Reachable (u.handle_keyload m info).1
  | step_handle_signed_packet {u : User} (m : BinaryMessage) (info : Info) :
      Reachable u → Reachable (u.handle_signed_packet m info).1
  | step_handle_tagged_packet {u : User} (m : BinaryMessage) (info : Info) :
      Reachable u → Reachable (u.handle_tagged_packet m info).1
  | step_handle_sequence {u : User} (m : BinaryMessage) (info : Info) :
      Reachable u → Reachable (u.handle_sequence m info).1
  | step_commit_sequence {u : User} (w : WrapStateSequence) (info : Info) :
      Reachable u → Reachable (u.commit_sequence w info).1
  | step_store_state {u u1 : User} (pk : PK) (link : Rel) :
      Reachable u → u.store_state pk link = some u1 → Reachable u1
  | step_store_state_for_all {u : User} (link : Rel) (seq_no : Nat) :
      Reachable u → Reachable (u.store_state_for_all link seq_no)

/-- The invariant that does hold on every reachable state: a known author
implies a registered channel, and a registered channel implies an entry for
self in `pk_store`. -/
def SelfInv (u : User) : Prop :=
  (u.author_sig_pk.isSome = true → u.appinst.isSome = true) ∧
  (u.appinst.isSome = true → (storeGet u.pk_store u.sig_pk).isSome = true)

theorem foldIns_isSome (c0 : Cursor Rel) (l : List PK) (s : PkStore) (q : PK)
    (h : (storeGet s q).isSome = true) :
    (storeGet (l.foldl (fun s pk =>
      if (storeGet s pk).isSome then s else storePut s pk c0) s) q).isSome = true := by
  obtain ⟨c, hc⟩ := Option.isSome_iff_exists.mp h
  rw [foldIns_preserve c0 l s q c hc]
  rfl

theorem selfInv_gen (sig_pk ke_sk : Nat) (lg : LinkGen) (flags : Nat)
    (enc : Bytes) (upl : Nat) : SelfInv (User.gen sig_pk ke_sk lg flags enc upl) := by
  constructor
  · intro h; simp [User.gen] at h
  · intro h; simp [User.gen] at h

theorem selfInv_create_channel {u : User} (idx : Nat) (h : SelfInv u) :
    SelfInv (u.create_channel idx).1 := by
  unfold User.create_channel
  by_cases ha : u.appinst.isSome = true
  · rw [if_pos ha]; exact h
  · rw [if_neg ha]
    refine ⟨fun _ => rfl, fun _ => ?_⟩
    simp [storeGet_storePut_self]

theorem selfInv_commit_wrapped {u : User} (w : WrapState) (info : Info)
    (h : SelfInv u) : SelfInv (u.commit_wrapped w info).1 := h

theorem selfInv_handle_announcement {u : User} (m : BinaryMessage) (info : Info)
    (h : SelfInv u) : SelfInv (u.handle_announcement m info).1 := by
  unfold User.handle_announcement
  split
  · exact h
  · split
    · exact h
    · split
      · exact h
      · refine ⟨fun _ => rfl, fun _ => ?_⟩
        simp [storeGet_storePut_self]

theorem selfInv_handle_subscribe {u : User} (m : BinaryMessage) (info : Info)
    (h : SelfInv u) : SelfInv (u.handle_subscribe m info).1 := by
  unfold User.handle_subscribe
  split
  · exact h
  · split
    · exact h
    · dsimp only
      split
      · exact h
      · exact ⟨fun hau => h.1 hau,
          fun hap => storeGet_storePut_isSome _ _ _ _ (h.2 hap)⟩

theorem selfInv_handle_keyload {u : User} (m : BinaryMessage) (info : Info)
    (h : SelfInv u) : SelfInv (u.handle_keyload m info).1 := by
  unfold User.handle_keyload
  split
  · exact h
  · split
    · exact h
    · dsimp only
      split
      · split
        · exact ⟨fun hau => h.1 hau, fun hap => foldIns_isSome _ _ _ _ (h.2 hap)⟩
        · exact h
      · exact h

theorem selfInv_handle_signed_packet {u : User} (m : BinaryMessage) (info : Info)
    (h : SelfInv u) : SelfInv (u.handle_signed_packet m info).1 := by
  unfold User.handle_signed_packet
  split
  · exact h
  · split
    · exact h
    · exact h

theorem selfInv_handle_tagged_packet {u : User} (m : BinaryMessage) (info : Info)
    (h : SelfInv u) : SelfInv (u.handle_tagged_packet m info).1 := by
  unfold User.handle_tagged_packet
  split
  · exact h
  · split
    · exact h
    · exact h

theorem selfInv_handle_sequence {u : User} (m : BinaryMessage) (info : Info)
    (h : SelfInv u) : SelfInv (u.handle_sequence m info).1 := by
  unfold User.handle_sequence
  split
  · exact h
  · split
    · exact h
    · exact h

theorem selfInv_store_state_for_all {u : User} (link : Rel) (seq_no : Nat)
    (h : SelfInv u) : SelfInv (u.store_state_for_all link seq_no) := by
  refine ⟨fun hau => h.1 hau, fun _ => ?_⟩
  unfold User.store_state_for_all
  simp [storeGet_storeMapVals, storeGet_storePut_self]

theorem selfInv_commit_sequence {u : User} (w : WrapStateSequence) (info : Info)
    (h : SelfInv u) : SelfInv (u.commit_sequence w info).1 := by
  unfold User.commit_sequence
  split
  · refine ⟨fun hau => h.1 hau, fun _ => ?_⟩
    simp [storeGet_storePut_self]
  · exact selfInv_store_state_for_all _ _ h

theorem selfInv_store_state {u u1 : User} (pk : PK) (link : Rel)
    (heq : u.store_state pk link = some u1) (h : SelfInv u) : SelfInv u1 := by
  unfold User.store_state at heq
  split at heq
  · exact absurd heq (by simp)
  · simp only [Option.some.injEq] at heq
    subst heq
    exact ⟨fun hau => h.1 hau,
      fun hap => storeGet_storePut_isSome _ _ _ _ (h.2 hap)⟩

theorem reachable_selfInv : ∀ u : User, Reachable u → SelfInv u := by
  intro u h
  induction h with
  | start sig_pk ke_sk lg flags enc upl => exact selfInv_gen sig_pk ke_sk lg flags enc upl
  | step_create_channel idx _ ih => exact selfInv_create_channel idx ih
  | step_commit_wrapped w info _ ih => exact selfInv_commit_wrapped w info ih
  | step_handle_announcement m info _ ih => exact selfInv_handle_announcement m info ih
  | step_handle_subscribe m info _ ih => exact selfInv_handle_subscribe m info ih
  | step_handle_keyload m info _ ih => exact selfInv_handle_keyload m info ih
  | step_handle_signed_packet m info _ ih => exact selfInv_handle_signed_packet m info ih
  | step_handle_tagged_packet m info _ ih => exact selfInv_handle_tagged_packet m info ih
  | step_handle_sequence m info _ ih => exact selfInv_handle_sequence m info ih
  | step_commit_sequence w info _ ih => exact selfInv_commit_sequence w info ih
  | step_store_state pk link _ heq ih => exact selfInv_store_state pk link heq ih
  | step_store_state_for_all link seq_no _ ih => exact selfInv_store_state_for_all link seq_no ih

/-- The author state after `create_channel`, then a non-branching
advancement at `seq_no = 0`. -/
def uC2 : User := (((User.gen 7 3 lgW 0 [] 0).create_channel 0).1).store_state_for_all 5 0

/-- Counterexample for C2: a reachable state (author after `create_channel`,
then `store_state_for_all(5, 0)`) with `appinst` set but `author_sig_pk`
still `None` — refuting the claimed equivalence, since `create_channel`
never records an author key — and with self's cursor at `seq_no = 1 < 2`. -/
theorem user_state_invariant_counterexample :
    Reachable uC2 ∧
    uC2.appinst.isSome = true ∧
    uC2.author_sig_pk = none ∧
    storeGet uC2.pk_store uC2.sig_pk = some ⟨5, 0, 1⟩ :=
  ⟨Reachable.step_store_state_for_all 5 0
      (Reachable.step_create_channel 0 (Reachable.start 7 3 lgW 0 [] 0)),
   rfl, rfl, rfl⟩

/-- C2 (amended): for every user state reachable through the public API,
`author_sig_pk.is_some()` implies `appinst.is_some()`, and
`appinst.is_some()` implies that `pk_store` contains an entry for
`self.sig_kp.public`.  The full equivalences fail (`create_channel` sets
`appinst` without an author key), and self cursors with `seq_no < 2` are
reachable through `store_state_for_all`. -/
theorem user_state_invariants_reachable (u : User) (h : Reachable u) :
    (u.author_sig_pk.isSome = true → u.appinst.isSome = true) ∧
    (u.appinst.isSome = true → (storeGet u.pk_store u.sig_pk).isSome = true) :=
  reachable_selfInv u h

/-- The author state right after `create_channel`. -/
def uCh : User := ((User.gen 7 3 lgW 0 [] 0).create_channel 0).1

/-- Witness for C2 (amended): the invariant evaluated on the concrete
reachable author state. -/
theorem user_state_invariants_reachable_witness :
    (storeGet uCh.pk_store uCh.sig_pk).isSome = true ∧
    (uCh.author_sig_pk.isSome = true → uCh.appinst.isSome = true) :=
  ⟨(user_state_invariants_reachable uCh
      (Reachable.step_create_channel 0 (Reachable.start 7 3 lgW 0 [] 0))).2 rfl,
   (user_state_invariants_reachable uCh
      (Reachable.step_create_channel 0 (Reachable.start 7 3 lgW 0 [] 0))).1⟩

end Streams
